import Mathlib

/-!
Shallow embedding of the morpheus-CLI core (src/utils.ts and src/terminal.ts)
over `List Char`, together with theorems settling the frozen claims about the
natural-language specification.

JavaScript strings are modelled as `List Char`; ANSI colouring (chalk) is
presentation-only and modelled as the identity on text; `new Date()` and all
external collaborators (the OS shell, the Gemini text-generation service, the
filesystem, the interactive credential prompt) are supplied as explicit stub
parameters in a `Collab` record, and the calls a handler makes to them are
recorded in an explicit event trace.
-/

namespace Morpheus

/-- Character class trimmed by JavaScript String.prototype.trim (ASCII
whitespace plus the common Unicode space characters and the BOM). -/
def isJsWs (c : Char) : Bool :=
  c == ' ' || c == '\t' || c == '\n' || c == '\r' || c == '\x0b' || c == '\x0c' ||
  c == '\u00A0' || c == '\u1680' || c == '\u2000' || c == '\u2001' || c == '\u2002' ||
  c == '\u2003' || c == '\u2004' || c == '\u2005' || c == '\u2006' || c == '\u2007' ||
  c == '\u2008' || c == '\u2009' || c == '\u200A' || c == '\u2028' || c == '\u2029' ||
  c == '\u202F' || c == '\u205F' || c == '\u3000' || c == '\uFEFF'

/-- JavaScript `input.trim()`: drop leading and trailing whitespace. -/
def jsTrim (s : List Char) : List Char :=
  ((s.dropWhile isJsWs).reverse.dropWhile isJsWs).reverse

/-- JavaScript `input.replace(/[\r\n]+/g, " ")`: every maximal run of carriage
returns and newlines becomes a single space.  The boolean flag records whether
the previous character belonged to such a run. -/
def collapseNL (prevNL : Bool) : List Char → List Char
  | [] => []
  | c :: rest =>
    if c == '\r' || c == '\n' then
      if prevNL then collapseNL true rest
      else ' ' :: collapseNL true rest
    else c :: collapseNL false rest

/-- Function `sanitizeInput` from src/utils.ts: `input.trim().replace(/[\r\n]+/g, " ")`. -/
def sanitizeInput (input : List Char) : List Char :=
  collapseNL false (jsTrim input)

/-- JavaScript `toLowerCase`, modelled on the ASCII range (all inputs appearing
in the claims are ASCII). -/
def jsToLower (s : List Char) : List Char :=
  s.map Char.toLower

/-- JavaScript `trimmed.indexOf(" ")`: index of the first space character
(`none` models the return value -1). -/
def indexOfSpace : List Char → Option Nat
  | [] => none
  | c :: rest => if c == ' ' then some 0 else (indexOfSpace rest).map (· + 1)

/-- Function `parseCommand` from src/utils.ts: sanitize, find the first space, lowercase
the part before it, trim the part after it. -/
def parseCommand (input : List Char) : List Char × List Char :=
  let trimmed := sanitizeInput input
  match indexOfSpace trimmed with
  | none => (jsToLower trimmed, [])
  | some i => (jsToLower (trimmed.take i), jsTrim (trimmed.drop (i + 1)))

/-- One entry of the command history (`HistoryItem` in src/utils.ts).  The
`Date` produced by `new Date()` is modelled as a `Nat` clock value supplied by
the environment. -/
structure HistoryItem where
  command : List Char
  output : List Char
  timestamp : Nat
deriving DecidableEq, Repr

/-- Class `TerminalHistory` from src/utils.ts: the entry array plus the recall
cursor `currentIndex` (a JavaScript number that ranges over -1 .. length,
hence `Int`). -/
structure TerminalHistory where
  history : List HistoryItem
  currentIndex : Int
deriving DecidableEq, Repr

/-- The freshly constructed history: `history = []`, `currentIndex = -1`. -/
def TerminalHistory.empty : TerminalHistory :=
  { history := [], currentIndex := -1 }

/-- Method `TerminalHistory.add`: push an entry unconditionally and reset the cursor
to `history.length` (one past the end). -/
def TerminalHistory.add (t : TerminalHistory) (command output : List Char)
    (now : Nat) : TerminalHistory :=
  let h := t.history ++ [{ command := command, output := output, timestamp := now }]
  { history := h, currentIndex := (h.length : Int) }

/-- Method `TerminalHistory.getPrevious`: if the cursor is positive, step it back and
return the command there; otherwise return null (`none`).  The inner `List.get?`
models the JavaScript array access `this.history[this.currentIndex]`; an
out-of-bounds access would surface as `none` here (claim C10 shows the access
is always in bounds). -/
def TerminalHistory.getPrevious (t : TerminalHistory) :
    Option (List Char) × TerminalHistory :=
  if t.currentIndex > 0 then
    let i := t.currentIndex - 1
    ((t.history.get? i.toNat).map (fun item => item.command),
     { t with currentIndex := i })
  else (none, t)

/-- Method `TerminalHistory.getNext`: if the cursor is before the last entry, step it
forward and return the command there; otherwise park the cursor past the end
and return the empty-text sentinel `""` (modelled `some []`, distinct from the
null `none`). -/
def TerminalHistory.getNext (t : TerminalHistory) :
    Option (List Char) × TerminalHistory :=
  if t.currentIndex < (t.history.length : Int) - 1 then
    let i := t.currentIndex + 1
    ((t.history.get? i.toNat).map (fun item => item.command),
     { t with currentIndex := i })
  else (some [], { t with currentIndex := (t.history.length : Int) })

/-- Method `TerminalHistory.getAll`: a copy of the entry array, insertion order. -/
def TerminalHistory.getAll (t : TerminalHistory) : List HistoryItem :=
  t.history

/-- Method `TerminalHistory.clear`: empty the array and reset the cursor to -1. -/
def TerminalHistory.clear (_t : TerminalHistory) : TerminalHistory :=
  { history := [], currentIndex := -1 }

/-- Interface `CommandResult` from src/utils.ts. -/
structure CommandResult where
  success : Bool
  output : List Char
  error : Option (List Char) := none
deriving DecidableEq, Repr

/-- Outcome of `spawn("sh", ["-c", command])`: either the child closed with an
exit code after writing stdout/stderr, or spawning itself failed with an error
message (the `error` event). -/
inductive ShellOutcome where
  | closed (code : Int) (stdout stderr : List Char)
  | launchFailed (message : List Char)
deriving DecidableEq, Repr

/-- The external collaborators of the terminal, supplied as pure stubs:
the OS shell, the blocking Gemini call (`generateContent`, returning the
response text or a thrown error message), the streaming Gemini call
(`generateContentStream`, returning the emitted fragments and an optional
error thrown after them), the vision-model call, the filesystem, the value the
user types at the interactive API-key prompt, and the current clock value. -/
structure Collab where
  shell : List Char → ShellOutcome
  gen : List Char → Except (List Char) (List Char)
  genStream : List Char → List (List Char) × Option (List Char)
  visionGen : List Nat → List Char → Except (List Char) (List Char)
  fsExists : List Char → Bool
  fsRead : List Char → List Nat
  enteredKey : List Char
  now : Nat

/-- Events recording each call a dispatch makes to an external collaborator. -/
inductive CallEvent where
  | keyPrompt
  | genCall (prompt : List Char)
  | streamCall (prompt : List Char)
  | visionCall (mimeType : List Char)
  | shellCall (command : List Char)
deriving DecidableEq, Repr

/-- Decimal digits of a natural number, as in JavaScript number-to-string
conversion inside a template literal. -/
def natToChars (n : Nat) : List Char :=
  Nat.toDigits 10 n

/-- JavaScript stringification of an integer exit code. -/
def intToChars (i : Int) : List Char :=
  if i < 0 then '-' :: natToChars i.natAbs else natToChars i.toNat

/-- The fixed failure message `Command failed with code N`. -/
def commandFailedMsg (code : Int) : List Char :=
  "Command failed with code ".data ++ intToChars code

/-- Method `AITerminal.executeShellCommand`, as a function of the shell outcome:
exit code 0 maps to success with trimmed stdout (or the fixed success message
when that is empty); a nonzero code maps to failure with trimmed stderr (or
the fixed failed-with-code message); a launch failure maps to failure with
`Error: ` followed by the launch error's message. -/
def executeShellCommand (outcome : ShellOutcome) : CommandResult :=
  match outcome with
  | .closed code stdout stderr =>
    if code = 0 then
      { success := true,
        output := if jsTrim stdout = [] then "Command executed successfully".data
                  else jsTrim stdout }
    else
      { success := false,
        output := if jsTrim stderr = [] then commandFailedMsg code else jsTrim stderr,
        error := some (jsTrim stderr) }
  | .launchFailed msg =>
    { success := false, output := "Error: ".data ++ msg, error := some msg }

/-- Method `AITerminal.callGeminiAPI`: guard on the model handle, then one blocking
`generateContent` call; a thrown error becomes a failed result prefixed
`AI Error: `.  The second component records the collaborator calls made. -/
def callGeminiAPI (env : Collab) (configured : Bool) (prompt : List Char) :
    CommandResult × List CallEvent :=
  if configured then
    match env.gen prompt with
    | .ok text => ({ success := true, output := text }, [.genCall prompt])
    | .error e =>
      ({ success := false, output := "AI Error: ".data ++ e, error := some e },
       [.genCall prompt])
  else
    ({ success := false,
       output := "AI not initialized. Use an AI command to set up API key.".data,
       error := some "No API key".data }, [])

/-- Method `AITerminal.handleExplain`. -/
def handleExplain (env : Collab) (configured : Bool) (text : List Char) :
    CommandResult × List CallEvent :=
  if text = [] then
    ({ success := false,
       output := "Please provide text to explain. Usage: explain <text>".data,
       error := some "Missing text".data }, [])
  else
    callGeminiAPI env configured
      ("Explain this in 2-3 lines max, concise and technical:\n\n".data ++ text)

/-- Method `AITerminal.handleGenerate`. -/
def handleGenerate (env : Collab) (configured : Bool) (request : List Char) :
    CommandResult × List CallEvent :=
  if request = [] then
    ({ success := false,
       output := "Please provide a generation request. Usage: generate <request>".data,
       error := some "Missing request".data }, [])
  else
    callGeminiAPI env configured
      ("Generate clean code only, no explanations unless essential. Keep it minimal:\n\n".data
        ++ request)

/-- Method `AITerminal.handleSummarize`. -/
def handleSummarize (env : Collab) (configured : Bool) (text : List Char) :
    CommandResult × List CallEvent :=
  if text = [] then
    ({ success := false,
       output := "Please provide text to summarize. Usage: summarize <text>".data,
       error := some "Missing text".data }, [])
  else
    callGeminiAPI env configured
      ("Summarize in 2-3 lines max, key points only:\n\n".data ++ text)

/-- Method `AITerminal.handleAICommand`: switch over the three AI verbs. -/
def handleAICommand (env : Collab) (configured : Bool) (command args : List Char) :
    CommandResult × List CallEvent :=
  if command = "explain".data then handleExplain env configured args
  else if command = "generate".data then handleGenerate env configured args
  else if command = "summarize".data then handleSummarize env configured args
  else
    ({ success := false, output := "Unknown AI command".data,
       error := some "Unknown command".data }, [])

/-- Node `path.extname`: the extension of the final path segment, from its last dot
(empty for dotfiles and extensionless names). -/
def extname (p : List Char) : List Char :=
  let base := (p.reverse.takeWhile (fun c => !(c == '/'))).reverse
  if (base.drop 1).contains '.' then
    '.' :: (base.reverse.takeWhile (fun c => !(c == '.'))).reverse
  else []

/-- Method `AITerminal.getMimeType`: extension-to-MIME lookup with `image/jpeg` as
the default. -/
def getMimeType (extension : List Char) : List Char :=
  let e := jsToLower extension
  if e = ".jpg".data then "image/jpeg".data
  else if e = ".jpeg".data then "image/jpeg".data
  else if e = ".png".data then "image/png".data
  else if e = ".gif".data then "image/gif".data
  else if e = ".webp".data then "image/webp".data
  else "image/jpeg".data

/-- Method `AITerminal.handleVision`: usage check, existence check, file read,
MIME-type detection, then one call to the vision model.  `genAIReady` models
the `this.genAI` null check. -/
def handleVision (env : Collab) (genAIReady : Bool) (imagePath : List Char) :
    CommandResult × List CallEvent :=
  if imagePath = [] then
    ({ success := false,
       output := "Please provide an image path. Usage: vision <image_path>".data,
       error := some "Missing image path".data }, [])
  else if !env.fsExists imagePath then
    ({ success := false,
       output := "Image file not found: ".data ++ imagePath,
       error := some "File not found".data }, [])
  else
    let imageData := env.fsRead imagePath
    let mimeType := getMimeType (extname imagePath)
    if !genAIReady then
      ({ success := false, output := "AI not initialized".data,
         error := some "No API key".data }, [])
    else
      match env.visionGen imageData mimeType with
      | .ok text => ({ success := true, output := text }, [.visionCall mimeType])
      | .error e =>
        ({ success := false, output := "Vision error: ".data ++ e,
           error := some e }, [.visionCall mimeType])

/-- The static help text returned by `AITerminal.handleHelp`. -/
def helpText : List Char :=
  "\nAI Terminal - Hybrid Shell + AI Assistant\n\n🤖 AI Commands:\n• explain <text>       - Get AI explanation of any text or concept\n• generate <request>   - Generate code, text, or solutions\n• summarize <text>     - Summarize long text or content\n• vision <image_path>  - Analyze images (describe, extract text, etc.)\n• clear               - Clear terminal output\n• help                - Show this help message\n\n💻 Shell Commands:\n• Any regular terminal command (ls, cd, git, npm, etc.)\n• Full shell functionality with AI assistance\n\nExamples:\n• ls -la\n• git status\n• explain \"what is machine learning\"\n• generate \"a Python function to sort an array\"\n• npm install express\n\nNote: AI features will prompt for Gemini API key if not set.\n".data

/-- Method `AITerminal.handleHelp`. -/
def handleHelp : CommandResult :=
  { success := true, output := helpText }

/-- Method `AITerminal.promptForApiKey`, as a function of the value the user types:
`none` (JavaScript null) when the trimmed value is empty or shorter than 20
characters, otherwise the trimmed value. -/
def promptKeyResult (entered : List Char) : Option (List Char) :=
  let trimmedKey := jsTrim entered
  if trimmedKey = [] then none
  else if trimmedKey.length < 20 then none
  else some trimmedKey

/-- Mutable state of one `AITerminal`: whether `this.model`/`this.genAI` are
set (the constructor and `setupAI` always set both together), and the history. -/
structure TermState where
  modelConfigured : Bool
  history : TerminalHistory
deriving DecidableEq, Repr

/-- The switch scrutinee of `AITerminal.executeCommand`: which case of the
dispatch switch a parsed verb selects. -/
inductive Dispatch where
  | helpCmd | aiCmd | visionCmd | clearCmd | emptyCmd | shellCmd
deriving DecidableEq, Repr

/-- Case selection of the `executeCommand` switch. -/
def dispatchOf (command : List Char) : Dispatch :=
  if command = "help".data then .helpCmd
  else if command = "explain".data ∨ command = "generate".data
       ∨ command = "summarize".data then .aiCmd
  else if command = "vision".data then .visionCmd
  else if command = "clear".data then .clearCmd
  else if command = [] then .emptyCmd
  else .shellCmd

/-- The history-logging step at the end of `executeCommand`:
`if (result.success && result.output) this.history.add(fullCommand, result.output)`. -/
def logResult (h : TerminalHistory) (fullCommand : List Char) (r : CommandResult)
    (now : Nat) : TerminalHistory :=
  if r.success = true ∧ r.output ≠ [] then h.add fullCommand r.output now else h

/-- The failed result returned (before any history logging) when an AI verb is
invoked, no model is configured, and the key prompt does not produce a key.
`chalk.yellow` is presentation-only and modelled as the identity. -/
def noKeyResult : CommandResult :=
  { success := false,
    output := "⚠️  AI features require a valid Gemini API key. Shell commands will continue to work normally.".data,
    error := some "No API key".data }

/-- Method `AITerminal.executeCommand`: parse, dispatch, run the selected handler,
then log successful non-empty outputs.  Returns the result, the new terminal
state and the trace of collaborator calls.  The AI and vision cases first pass
the API-key gate when no model is configured; a failed gate returns early,
skipping the logging step.  The surrounding try/catch is unreachable in this
model because every collaborator failure is already materialised as data. -/
def executeCommand (env : Collab) (st : TermState) (input : List Char) :
    CommandResult × TermState × List CallEvent :=
  let pc := parseCommand input
  let command := pc.1
  let args := pc.2
  let fullCommand := jsTrim input
  match dispatchOf command with
  | .helpCmd =>
    (handleHelp,
     { st with history := logResult st.history fullCommand handleHelp env.now }, [])
  | .aiCmd =>
    if st.modelConfigured then
      let hr := handleAICommand env true command args
      (hr.1, { st with history := logResult st.history fullCommand hr.1 env.now }, hr.2)
    else
      match promptKeyResult env.enteredKey with
      | none => (noKeyResult, st, [.keyPrompt])
      | some _ =>
        let hr := handleAICommand env true command args
        (hr.1,
         { modelConfigured := true,
           history := logResult st.history fullCommand hr.1 env.now },
         .keyPrompt :: hr.2)
  | .visionCmd =>
    if st.modelConfigured then
      let hr := handleVision env true args
      (hr.1, { st with history := logResult st.history fullCommand hr.1 env.now }, hr.2)
    else
      match promptKeyResult env.enteredKey with
      | none => (noKeyResult, st, [.keyPrompt])
      | some _ =>
        let hr := handleVision env true args
        (hr.1,
         { modelConfigured := true,
           history := logResult st.history fullCommand hr.1 env.now },
         .keyPrompt :: hr.2)
  | .clearCmd =>
    let r : CommandResult := { success := true, output := "Terminal cleared.".data }
    (r, { st with history := logResult st.history.clear fullCommand r env.now }, [])
  | .emptyCmd =>
    let r : CommandResult := { success := true, output := [] }
    (r, { st with history := logResult st.history fullCommand r env.now }, [])
  | .shellCmd =>
    let r := executeShellCommand (env.shell fullCommand)
    (r, { st with history := logResult st.history fullCommand r env.now },
     [.shellCall fullCommand])

/-- Method `AITerminal.streamResponse`: non-AI inputs are executed through
`executeCommand` and their single output is yielded; AI verbs build the
streaming prompt inline (the literals are repeated here exactly as in the
source, independently of the blocking handlers) and yield the fragments of
`generateContentStream`, followed by an `Error: ` fragment when the stream
throws.  Returns the yielded fragments in order, the new state and the trace. -/
def streamResponse (env : Collab) (st : TermState) (input : List Char) :
    List (List Char) × TermState × List CallEvent :=
  let pc := parseCommand input
  let command := pc.1
  let args := pc.2
  if ¬ (command = "explain".data ∨ command = "generate".data
        ∨ command = "summarize".data) then
    let out := executeCommand env st input
    ([out.1.output], out.2.1, out.2.2)
  else if ¬ st.modelConfigured then
    (["Error: AI not initialized. Use an AI command to set up API key.".data], st, [])
  else
    let prompt :=
      if command = "explain".data then
        "Explain this in 2-3 lines max, concise and technical:\n\n".data ++ args
      else if command = "generate".data then
        "Generate clean code only, no explanations unless essential. Keep it minimal:\n\n".data ++ args
      else
        "Summarize in 2-3 lines max, key points only:\n\n".data ++ args
    match env.genStream prompt with
    | (chunks, none) => (chunks, st, [.streamCall prompt])
    | (chunks, some e) =>
      (chunks ++ ["Error: ".data ++ e], st, [.streamCall prompt])

/-- Concatenation of the fragments yielded by a streaming call. -/
def concatChunks (chunks : List (List Char)) : List Char :=
  chunks.foldr (fun a b => a ++ b) []

/-- The router of claim C2, written from the spec's words: collapse newline
runs to single spaces, then split at the first WHITESPACE character; the part
before it lowercased is the verb, the part after it trimmed is the argument;
with no whitespace the whole lowercased input is the verb. -/
def parseCommandClaimWs (input : List Char) : List Char × List Char :=
  let t := sanitizeInput input
  match t.dropWhile (fun c => !(isJsWs c)) with
  | [] => (jsToLower t, [])
  | _ :: rest => (jsToLower (t.takeWhile (fun c => !(isJsWs c))), jsTrim rest)

/-- The router of claim C2 as amended: identical, but the split point is the
first SPACE character (U+0020), matching `indexOf(" ")` in the source. -/
def parseCommandFirstSpace (input : List Char) : List Char × List Char :=
  let t := sanitizeInput input
  match t.dropWhile (fun c => !(c == ' ')) with
  | [] => (jsToLower t, [])
  | _ :: rest => (jsToLower (t.takeWhile (fun c => !(c == ' '))), jsTrim rest)

/-- The recall scenario of claim C1: three `getPrevious` calls followed by
three `getNext` calls, collecting the six returned values in order. -/
def recallSixResults (t : TerminalHistory) : List (Option (List Char)) :=
  let p1 := t.getPrevious
  let p2 := p1.2.getPrevious
  let p3 := p2.2.getPrevious
  let n1 := p3.2.getNext
  let n2 := n1.2.getNext
  let n3 := n2.2.getNext
  [p1.1, p2.1, p3.1, n1.1, n2.1, n3.1]

/-- The history of claim C1's scenario: three commands appended to an
initially empty history. -/
def threeAdds (c1 c2 c3 o1 o2 o3 : List Char) (t1 t2 t3 : Nat) : TerminalHistory :=
  ((TerminalHistory.empty.add c1 o1 t1).add c2 o2 t2).add c3 o3 t3

/-- The cursor invariant of claim C10: `-1 <= currentIndex <= history.length`. -/
def HistInv (t : TerminalHistory) : Prop :=
  -1 ≤ t.currentIndex ∧ t.currentIndex ≤ (t.history.length : Int)

instance (t : TerminalHistory) : Decidable (HistInv t) := by
  unfold HistInv; infer_instance

/-- The fixed set of builtin verbs of the router (the empty verb aside). -/
def builtinVerbs : List (List Char) :=
  ["help".data, "explain".data, "generate".data, "summarize".data,
   "vision".data, "clear".data]

/-- A concrete stub environment used by the concrete witness instances: the
blocking Gemini stub answers every prompt with the concatenation of the
fragments the streaming stub yields for it, the filesystem is empty, and the
value typed at the key prompt is too short to be a credential. -/
def stubCollab : Collab where
  shell := fun _ => .closed 0 " hi ".data []
  gen := fun _ => .ok "Resp".data
  genStream := fun _ => (["Re".data, "sp".data], none)
  visionGen := fun _ _ => .ok "V".data
  fsExists := fun _ => false
  fsRead := fun _ => []
  enteredKey := "short".data
  now := 0

/-- A fresh terminal whose model handle is configured (a valid API key was
present at construction). -/
def stConfigured : TermState :=
  { modelConfigured := true, history := TerminalHistory.empty }

/-- A fresh terminal with no API key configured. -/
def stFresh : TermState :=
  { modelConfigured := false, history := TerminalHistory.empty }

/-- Claim C1, counterexample.  After appending commands a, b, c, the three
`getPrevious` calls do return the three commands in reverse order, but the
three `getNext` calls return b, c and the empty sentinel: the first command a
is returned by no `getNext` call, so the six calls do not return "the three
command texts in reverse order and then in forward order". -/
theorem claim_C1_counterexample :
    recallSixResults (threeAdds "a".data "b".data "c".data "x".data "y".data "z".data 0 0 0)
      = [some "c".data, some "b".data, some "a".data,
         some "b".data, some "c".data, some []]
    ∧ ¬ some "a".data ∈
        (recallSixResults
          (threeAdds "a".data "b".data "c".data "x".data "y".data "z".data 0 0 0)).drop 3 := by
  decide

/-- Claim C1 as amended: after three appends (each with non-empty output) to
an initially empty history, three `getPrevious` calls return the three
commands in reverse order, and three `getNext` calls then return the second
command, the third command, and finally the empty-text sentinel. -/
theorem claim_C1_amended (c1 c2 c3 o1 o2 o3 : List Char) (t1 t2 t3 : Nat)
    (h1 : o1 ≠ []) (h2 : o2 ≠ []) (h3 : o3 ≠ []) :
    recallSixResults (threeAdds c1 c2 c3 o1 o2 o3 t1 t2 t3)
      = [some c3, some c2, some c1, some c2, some c3, some []] := by
  simp [recallSixResults, threeAdds, TerminalHistory.empty, TerminalHistory.add,
        TerminalHistory.getPrevious, TerminalHistory.getNext, List.get?]

/-- Witness for claim C1's amended theorem at the concrete commands a, b, c. -/
theorem claim_C1_witness :
    recallSixResults (threeAdds "a".data "b".data "c".data "x".data "y".data "z".data 1 2 3)
      = [some "c".data, some "b".data, some "a".data,
         some "b".data, some "c".data, some []] :=
  claim_C1_amended "a".data "b".data "c".data "x".data "y".data "z".data 1 2 3
    (by decide) (by decide) (by decide)

/-- Claim C2, counterexample.  On the input `ab&#9;cd` (a tab between two
letter pairs, no space), the source router finds no space and returns the
whole input as the verb with an empty argument, while the claim's rule
(split at the first whitespace character) would return verb `ab` and
argument `cd`. -/
theorem claim_C2_counterexample :
    parseCommand "ab\tcd".data = ("ab\tcd".data, [])
    ∧ parseCommandClaimWs "ab\tcd".data = ("ab".data, "cd".data)
    ∧ parseCommand "ab\tcd".data ≠ parseCommandClaimWs "ab\tcd".data := by
  decide

/-- JavaScript `indexOf(" ")` returns -1 exactly when dropping the space-free part
consumes the whole list. -/
theorem indexOfSpace_eq_none_iff (l : List Char) :
    indexOfSpace l = none ↔ l.dropWhile (fun c => !(c == ' ')) = [] := by
  induction l with
  | nil => simp [indexOfSpace]
  | cons c rest ih =>
    by_cases hc : c = ' '
    · subst hc
      simp [indexOfSpace, List.dropWhile_cons]
    · have hb : (c == ' ') = false := by simp [hc]
      simp [indexOfSpace, hc, List.dropWhile_cons, hb, ih]

/-- When `indexOf(" ")` finds a space at position i, the substring before i is
the space-free part and the substring after i is what follows the part the
`dropWhile` split discards. -/
theorem indexOfSpace_eq_some (l : List Char) (i : Nat)
    (h : indexOfSpace l = some i) :
    l.take i = l.takeWhile (fun c => !(c == ' '))
    ∧ l.drop (i + 1) = (l.dropWhile (fun c => !(c == ' '))).tail
    ∧ ∃ rest, l.dropWhile (fun c => !(c == ' ')) = ' ' :: rest := by
  induction l generalizing i with
  | nil => simp [indexOfSpace] at h
  | cons c rest ih =>
    by_cases hc : c = ' '
    · subst hc
      simp [indexOfSpace] at h
      subst h
      simp [List.takeWhile_cons, List.dropWhile_cons]
    · have hb : (c == ' ') = false := by simp [hc]
      simp [indexOfSpace, hc, hb] at h
      obtain ⟨j, hj, rfl⟩ := h
      have := ih j hj
      refine ⟨?_, ?_, ?_⟩
      · simp [List.takeWhile_cons, hb, List.take, this.1]
      · simp [List.dropWhile_cons, hb, List.drop, this.2.1]
      · simpa [List.dropWhile_cons, hb] using this.2.2

/-- Claim C2 as amended: the router trims, collapses newline runs to single
spaces, then splits at the first SPACE character; everything before it,
lowercased, is the verb, everything after it, trimmed, is the argument, and
with no space the verb is the whole lowercased input with empty argument. -/
theorem claim_C2_amended (input : List Char) :
    parseCommand input = parseCommandFirstSpace input := by
  cases h : indexOfSpace (sanitizeInput input) with
  | none =>
    have h0 := (indexOfSpace_eq_none_iff _).mp h
    simp only [parseCommand, parseCommandFirstSpace, h, h0]
  | some i =>
    obtain ⟨h1, h2, rest, h3⟩ := indexOfSpace_eq_some _ _ h
    simp only [parseCommand, parseCommandFirstSpace, h, h1, h2, h3, List.tail_cons]

/-- An index bounded by the length reaches an entry. -/
theorem get?_isSome_of_lt {α : Type} (l : List α) (n : Nat) (h : n < l.length) :
    (l.get? n).isSome := by
  rw [Option.isSome_iff_ne_none]
  intro hn
  rw [List.get?_eq_none] at hn
  omega

/-- Claim C10: the empty history satisfies the cursor invariant
`-1 <= currentIndex <= history.length`; `add`, `getPrevious`, `getNext` and
`clear` preserve it (`getAll` reads the entry list without touching state);
after an `add` the history is non-empty and the cursor positive; and under the
invariant the array accesses inside `getPrevious` and `getNext` are in bounds,
so they never read an undefined entry. -/
theorem claim_C10 :
    HistInv TerminalHistory.empty
    ∧ (∀ (t : TerminalHistory) (c o : List Char) (n : Nat), HistInv t →
        HistInv (t.add c o n) ∧ 0 < (t.add c o n).currentIndex
          ∧ (t.add c o n).history ≠ [])
    ∧ (∀ (t : TerminalHistory), HistInv t →
        HistInv (t.getPrevious).2
        ∧ (0 < t.currentIndex →
            (t.history.get? (t.currentIndex - 1).toNat).isSome
            ∧ (t.getPrevious).1.isSome))
    ∧ (∀ (t : TerminalHistory), HistInv t →
        HistInv (t.getNext).2
        ∧ (t.currentIndex < (t.history.length : Int) - 1 →
            (t.history.get? (t.currentIndex + 1).toNat).isSome
            ∧ (t.getNext).1.isSome))
    ∧ (∀ (t : TerminalHistory), HistInv (t.clear) ∧ t.getAll = t.history) := by
  refine ⟨by decide, ?_, ?_, ?_, ?_⟩
  · intro t c o n _h
    simp only [TerminalHistory.add, HistInv, List.length_append, List.length_cons,
      List.length_nil, ne_eq, List.append_eq_nil]
    refine ⟨⟨by omega, by omega⟩, by omega, by simp⟩
  · intro t ⟨hlo, hhi⟩
    by_cases hpos : t.currentIndex > 0
    · have hb : ((t.currentIndex - 1).toNat) < t.history.length := by omega
      have hsome := get?_isSome_of_lt t.history _ hb
      constructor
      · simp only [TerminalHistory.getPrevious, if_pos hpos, HistInv]
        constructor <;> omega
      · intro _
        refine ⟨hsome, ?_⟩
        simp only [TerminalHistory.getPrevious, if_pos hpos, Option.isSome_map']
        exact hsome
    · constructor
      · simp only [TerminalHistory.getPrevious, if_neg hpos]
        exact ⟨hlo, hhi⟩
      · intro hc; exact absurd hc hpos
  · intro t ⟨hlo, hhi⟩
    by_cases hlt : t.currentIndex < (t.history.length : Int) - 1
    · have hb : ((t.currentIndex + 1).toNat) < t.history.length := by omega
      have hsome := get?_isSome_of_lt t.history _ hb
      constructor
      · simp only [TerminalHistory.getNext, if_pos hlt, HistInv]
        constructor <;> omega
      · intro _
        refine ⟨hsome, ?_⟩
        simp only [TerminalHistory.getNext, if_pos hlt, Option.isSome_map']
        exact hsome
    · constructor
      · simp only [TerminalHistory.getNext, if_neg hlt, HistInv]
        constructor <;> omega
      · intro hc; exact absurd hc hlt
  · intro t
    exact ⟨by simp [TerminalHistory.clear, HistInv], rfl⟩

/-- Witness for claim C10: a concrete run (one append, one recall) in which
the invariant holds at every step and the recalled entry exists. -/
theorem claim_C10_witness :
    HistInv ((TerminalHistory.empty.add "a".data "o".data 0).getPrevious).2
    ∧ ((TerminalHistory.empty.add "a".data "o".data 0).getPrevious).1.isSome := by
  have h := claim_C10
  have inv1 : HistInv (TerminalHistory.empty.add "a".data "o".data 0) :=
    (h.2.1 TerminalHistory.empty "a".data "o".data 0 h.1).1
  have hprev := h.2.2.1 (TerminalHistory.empty.add "a".data "o".data 0) inv1
  exact ⟨hprev.1, (hprev.2 (by decide)).2⟩

/-- Dropping a prefix never lengthens a list. -/
theorem dropWhile_length_le {α : Type} (p : α → Bool) (l : List α) :
    (l.dropWhile p).length ≤ l.length := by
  induction l with
  | nil => simp
  | cons c rest ih =>
    rw [List.dropWhile_cons]
    by_cases hc : p c
    · rw [if_pos hc]; simp; omega
    · rw [if_neg hc]

/-- A `dropWhile` that keeps the length keeps the list. -/
theorem dropWhile_eq_self_of_length {α : Type} (p : α → Bool) (l : List α)
    (h : (l.dropWhile p).length = l.length) : l.dropWhile p = l := by
  cases l with
  | nil => rfl
  | cons c rest =>
    by_cases hc : p c
    · exfalso
      rw [List.dropWhile_cons, if_pos hc] at h
      have := dropWhile_length_le p rest
      simp at h
      omega
    · rw [List.dropWhile_cons, if_neg hc]

/-- A string equal to its own trim is untouched by each one-sided trim. -/
theorem jsTrim_parts (a : List Char) (h : jsTrim a = a) :
    a.dropWhile isJsWs = a ∧ a.reverse.dropWhile isJsWs = a.reverse := by
  have hlen : (jsTrim a).length = a.length := by rw [h]
  unfold jsTrim at hlen
  have l2 := dropWhile_length_le isJsWs (a.dropWhile isJsWs).reverse
  simp only [List.length_reverse] at hlen l2
  have e1 : (a.dropWhile isJsWs).length = a.length := by
    have l1 := dropWhile_length_le isJsWs a
    omega
  have h1 : a.dropWhile isJsWs = a := dropWhile_eq_self_of_length _ _ e1
  refine ⟨h1, ?_⟩
  rw [h1] at hlen
  exact dropWhile_eq_self_of_length _ _ (by simpa using hlen)

/-- If `dropWhile` keeps a cons intact, the predicate fails on its head. -/
theorem head_pred_false {α : Type} (p : α → Bool) (c : α) (rest : List α)
    (hd : (c :: rest).dropWhile p = c :: rest) : p c = false := by
  by_cases hc : p c
  · exfalso
    rw [List.dropWhile_cons, if_pos hc] at hd
    have hle := dropWhile_length_le p rest
    have : (rest.dropWhile p).length = rest.length + 1 := by rw [hd]; simp
    omega
  · simpa using hc

/-- The replacement `replace(/[\r\n]+/g, " ")` is the identity on inputs free of carriage
returns and newlines. -/
theorem collapseNL_eq_self (l : List Char)
    (h : ∀ c ∈ l, ¬(c = '\r' ∨ c = '\n')) (b : Bool) : collapseNL b l = l := by
  induction l generalizing b with
  | nil => rfl
  | cons c rest ih =>
    have hc := h c (by simp)
    rw [not_or] at hc
    have hb : (c == '\r' || c == '\n') = false := by
      simp [hc.1, hc.2]
    simp only [collapseNL, hb, Bool.false_eq_true, if_false]
    rw [ih (fun x hx => h x (List.mem_cons_of_mem c hx)) false]

/-- JavaScript `indexOf(" ")` on a space-free part followed by a space separator. -/
theorem indexOfSpace_append (w a : List Char) (hw : ∀ c ∈ w, ¬ c = ' ') :
    indexOfSpace (w ++ ' ' :: a) = some w.length := by
  induction w with
  | nil => simp [indexOfSpace]
  | cons c rest ih =>
    have hc : ¬ c = ' ' := hw c (by simp)
    have hb : (c == ' ') = false := by simp [hc]
    simp [indexOfSpace, hb, ih (fun x hx => hw x (List.mem_cons_of_mem c hx))]

/-- JavaScript `trim` is the identity on a whitespace-free verb, a space separator and an
already-trimmed non-empty argument. -/
theorem jsTrim_append_sep (w a : List Char) (hw_ne : w ≠ [])
    (hw : ∀ c ∈ w, isJsWs c = false) (ha_ne : a ≠ []) (ha_tr : jsTrim a = a) :
    jsTrim (w ++ ' ' :: a) = w ++ ' ' :: a := by
  obtain ⟨cw, w', rfl⟩ := List.exists_cons_of_ne_nil hw_ne
  have hcw : isJsWs cw = false := hw cw (by simp)
  have hdrop1 : ((cw :: w') ++ ' ' :: a).dropWhile isJsWs = (cw :: w') ++ ' ' :: a := by
    rw [List.cons_append, List.dropWhile_cons, hcw]
    simp
  have hrev_ne : a.reverse ≠ [] := by simpa using ha_ne
  obtain ⟨ca, ra, hra⟩ := List.exists_cons_of_ne_nil hrev_ne
  have hca : isJsWs ca = false := by
    have hp := (jsTrim_parts a ha_tr).2
    rw [hra] at hp
    exact head_pred_false _ _ _ hp
  have hdrop2 : ((cw :: w') ++ ' ' :: a).reverse.dropWhile isJsWs
      = ((cw :: w') ++ ' ' :: a).reverse := by
    rw [List.reverse_append, List.reverse_cons, hra, List.cons_append, List.cons_append,
      List.dropWhile_cons, hca]
    simp
  unfold jsTrim
  rw [hdrop1, hdrop2, List.reverse_reverse]

/-- Splitting lemma for the router: on input `verb ++ " " ++ argument` with a
whitespace-free non-empty verb and a trimmed, newline-free, non-empty
argument, `parseCommand` returns the lowercased verb and the argument with its
case intact. -/
theorem parse_split (w a : List Char) (hw_ne : w ≠ [])
    (hw : ∀ c ∈ w, isJsWs c = false)
    (ha_ne : a ≠ []) (ha_tr : jsTrim a = a)
    (ha_nl : ∀ c ∈ a, ¬(c = '\r' ∨ c = '\n')) :
    parseCommand (w ++ ' ' :: a) = (jsToLower w, a) := by
  have hsan : sanitizeInput (w ++ ' ' :: a) = w ++ ' ' :: a := by
    unfold sanitizeInput
    rw [jsTrim_append_sep w a hw_ne hw ha_ne ha_tr]
    apply collapseNL_eq_self
    intro c hc
    rcases List.mem_append.mp hc with h | h
    · intro habs
      have hwc := hw c h
      rcases habs with rfl | rfl <;> simp [isJsWs] at hwc
    · rcases List.mem_cons.mp h with rfl | h
      · rintro (h' | h') <;> exact absurd h' (by decide)
      · exact ha_nl c h
  have hidx : indexOfSpace (w ++ ' ' :: a) = some w.length := by
    apply indexOfSpace_append
    intro c hc hsp
    have hwc := hw c hc
    subst hsp
    simp [isJsWs] at hwc
  have hdrop : (w ++ ' ' :: a).drop (w.length + 1) = a := by
    have hsplit : w ++ ' ' :: a = (w ++ [' ']) ++ a := by simp
    have hlen : w.length + 1 = (w ++ [' ']).length := by simp
    rw [hsplit, hlen, List.drop_left]
  simp only [parseCommand, hsan, hidx, List.take_left, hdrop, ha_tr]

/-- Two inputs that parse to the same non-shell verb and argument produce the
same command result (only the history entry and a shell passthrough would see
the raw input text). -/
theorem exec_result_parse_congr (env : Collab) (st : TermState)
    (i1 i2 v a : List Char)
    (h1 : parseCommand i1 = (v, a)) (h2 : parseCommand i2 = (v, a))
    (hns : dispatchOf v ≠ Dispatch.shellCmd) :
    (executeCommand env st i1).1 = (executeCommand env st i2).1 := by
  simp only [executeCommand, h1, h2]
  cases hd : dispatchOf v
  case helpCmd => rfl
  case aiCmd =>
    by_cases hst : st.modelConfigured
    · simp [hst]
    · simp only [hst, Bool.false_eq_true, if_false]
      cases hk : promptKeyResult env.enteredKey <;> simp [hk]
  case visionCmd =>
    by_cases hst : st.modelConfigured
    · simp [hst]
    · simp only [hst, Bool.false_eq_true, if_false]
      cases hk : promptKeyResult env.enteredKey <;> simp [hk]
  case clearCmd => rfl
  case emptyCmd => rfl
  case shellCmd => exact absurd hd hns

/-- Claim C4: on any capitalisation `w` of a builtin verb followed by a space
and argument text `a` (non-empty, already trimmed, free of newlines), the
router yields the lowercased verb and the argument with its original case; the
verb selects the corresponding builtin branch of the dispatch switch (never
the shell passthrough), and dispatching the capitalised input returns the same
command result as dispatching the lowercased one. -/
theorem claim_C4 (w a : List Char)
    (hw_ne : w ≠ []) (hw : ∀ c ∈ w, isJsWs c = false)
    (hlow : jsToLower w ∈ builtinVerbs)
    (ha_ne : a ≠ []) (ha_tr : jsTrim a = a)
    (ha_nl : ∀ c ∈ a, ¬(c = '\r' ∨ c = '\n')) :
    parseCommand (w ++ ' ' :: a) = (jsToLower w, a)
    ∧ dispatchOf (jsToLower w) ≠ Dispatch.shellCmd
    ∧ ∀ env st, (executeCommand env st (w ++ ' ' :: a)).1
        = (executeCommand env st (jsToLower w ++ ' ' :: a)).1 := by
  have hparse := parse_split w a hw_ne hw ha_ne ha_tr ha_nl
  have hlow' : jsToLower w = "help".data ∨ jsToLower w = "explain".data
      ∨ jsToLower w = "generate".data ∨ jsToLower w = "summarize".data
      ∨ jsToLower w = "vision".data ∨ jsToLower w = "clear".data := by
    simpa [builtinVerbs] using hlow
  refine ⟨hparse, ?_, ?_⟩
  · rcases hlow' with hv | hv | hv | hv | hv | hv <;> rw [hv] <;> decide
  · intro env st
    rcases hlow' with hv | hv | hv | hv | hv | hv
    · have h2 := parse_split "help".data a (by decide) (by decide) ha_ne ha_tr ha_nl
      rw [hv] at hparse ⊢
      exact exec_result_parse_congr env st _ _ _ a hparse (by simpa using h2) (by decide)
    · have h2 := parse_split "explain".data a (by decide) (by decide) ha_ne ha_tr ha_nl
      rw [hv] at hparse ⊢
      exact exec_result_parse_congr env st _ _ _ a hparse (by simpa using h2) (by decide)
    · have h2 := parse_split "generate".data a (by decide) (by decide) ha_ne ha_tr ha_nl
      rw [hv] at hparse ⊢
      exact exec_result_parse_congr env st _ _ _ a hparse (by simpa using h2) (by decide)
    · have h2 := parse_split "summarize".data a (by decide) (by decide) ha_ne ha_tr ha_nl
      rw [hv] at hparse ⊢
      exact exec_result_parse_congr env st _ _ _ a hparse (by simpa using h2) (by decide)
    · have h2 := parse_split "vision".data a (by decide) (by decide) ha_ne ha_tr ha_nl
      rw [hv] at hparse ⊢
      exact exec_result_parse_congr env st _ _ _ a hparse (by simpa using h2) (by decide)
    · have h2 := parse_split "clear".data a (by decide) (by decide) ha_ne ha_tr ha_nl
      rw [hv] at hparse ⊢
      exact exec_result_parse_congr env st _ _ _ a hparse (by simpa using h2) (by decide)

/-- Witness for claim C4 at the spec's own example input `EXPLAIN foo`. -/
theorem claim_C4_witness :
    parseCommand ("EXPLAIN foo").data = ("explain".data, "foo".data)
    ∧ dispatchOf "explain".data ≠ Dispatch.shellCmd := by
  have h := claim_C4 "EXPLAIN".data "foo".data (by decide) (by decide) (by decide)
    (by decide) (by decide) (by decide)
  have heq : "EXPLAIN".data ++ ' ' :: "foo".data = ("EXPLAIN foo").data := by decide
  have hlo : jsToLower "EXPLAIN".data = "explain".data := by decide
  rw [heq, hlo] at h
  exact ⟨h.1, h.2.1⟩

/-- Claim C3, counterexample.  First, `TerminalHistory.add` does not ignore an
empty output: it appends unconditionally.  Second, a dispatched `explain` with
no argument (model configured) produces a failed result with non-empty output,
and no history entry is created — so entry creation is not equivalent to
non-empty output alone. -/
theorem claim_C3_counterexample :
    (TerminalHistory.empty.add "x".data [] 0).history.length = 1
    ∧ (executeCommand stubCollab stConfigured "explain".data).1.success = false
    ∧ (executeCommand stubCollab stConfigured "explain".data).1.output ≠ []
    ∧ (executeCommand stubCollab stConfigured "explain".data).2.1.history.history = [] := by
  decide

/-- Claim C3 as amended: for every dispatched input, a history entry is
created if and only if the command result SUCCEEDED with non-empty output;
the entry is appended to the history as the handler left it (`clear` first
empties it), and the guard lives at the dispatch site, not inside the
unconditionally-appending `add`. -/
theorem claim_C3_amended (env : Collab) (st : TermState) (input : List Char) :
    (executeCommand env st input).2.1.history =
      (if (executeCommand env st input).1.success = true
          ∧ (executeCommand env st input).1.output ≠ [] then
        (if dispatchOf (parseCommand input).1 = Dispatch.clearCmd
         then st.history.clear else st.history).add (jsTrim input)
          (executeCommand env st input).1.output env.now
       else
        (if dispatchOf (parseCommand input).1 = Dispatch.clearCmd
         then st.history.clear else st.history)) := by
  cases hd : dispatchOf (parseCommand input).1 <;>
    simp only [executeCommand, hd, logResult]
  case helpCmd => split <;> simp_all
  case aiCmd =>
    by_cases hst : st.modelConfigured
    · simp only [hst, if_true]
      split <;> simp_all
    · simp only [hst, Bool.false_eq_true, if_false]
      cases hk : promptKeyResult env.enteredKey
      · simp [noKeyResult]
      · simp only []
        split <;> simp_all
  case visionCmd =>
    by_cases hst : st.modelConfigured
    · simp only [hst, if_true]
      split <;> simp_all
    · simp only [hst, Bool.false_eq_true, if_false]
      cases hk : promptKeyResult env.enteredKey
      · simp [noKeyResult]
      · simp only []
        split <;> simp_all
  case clearCmd => split <;> simp_all
  case emptyCmd => split <;> simp_all
  case shellCmd => split <;> simp_all

/-- Claim C5, counterexample.  When the interpreter fails to launch, the
result's output is not the launch error's message itself: the source prefixes
it with `Error: `. -/
theorem claim_C5_counterexample :
    executeShellCommand (.launchFailed "spawn sh ENOENT".data)
      = { success := false, output := "Error: spawn sh ENOENT".data,
          error := some "spawn sh ENOENT".data }
    ∧ (executeShellCommand (.launchFailed "spawn sh ENOENT".data)).output
        ≠ "spawn sh ENOENT".data := by
  decide

/-- Claim C5 as amended: exit code 0 gives a successful result whose output is
the trimmed stdout, or the fixed success message when that is empty; a nonzero
exit code gives a failed result whose output is the trimmed stderr, or a fixed
message containing the decimal exit code when that is empty; a launch failure
gives a failed result whose output is `Error: ` followed by the launch error's
message. -/
theorem claim_C5_amended (code : Int) (stdout stderr msg : List Char) :
    (code = 0 →
      (executeShellCommand (.closed code stdout stderr)).success = true
      ∧ (executeShellCommand (.closed code stdout stderr)).output
          = (if jsTrim stdout = [] then "Command executed successfully".data
             else jsTrim stdout))
    ∧ (code ≠ 0 →
      (executeShellCommand (.closed code stdout stderr)).success = false
      ∧ (executeShellCommand (.closed code stdout stderr)).output
          = (if jsTrim stderr = [] then commandFailedMsg code else jsTrim stderr)
      ∧ (jsTrim stderr = [] →
          intToChars code <:+ (executeShellCommand (.closed code stdout stderr)).output))
    ∧ ((executeShellCommand (.launchFailed msg)).success = false
      ∧ (executeShellCommand (.launchFailed msg)).output = "Error: ".data ++ msg) := by
  refine ⟨?_, ?_, by simp [executeShellCommand]⟩
  · intro h0
    simp [executeShellCommand, h0]
  · intro hn
    refine ⟨by simp [executeShellCommand, hn], by simp [executeShellCommand, hn], ?_⟩
    intro he
    have hout : (executeShellCommand (.closed code stdout stderr)).output
        = commandFailedMsg code := by
      simp [executeShellCommand, hn, he]
    rw [hout]
    show intToChars code <:+ "Command failed with code ".data ++ intToChars code
    exact List.suffix_append _ _

/-- Witness for claim C5's amended theorem: a success with stdout `hi`, a
failure with empty stderr and code 7, and a launch failure. -/
theorem claim_C5_witness :
    (executeShellCommand (.closed 0 " hi ".data [])).success = true
    ∧ (executeShellCommand (.closed 7 [] [])).output
        = "Command failed with code 7".data
    ∧ (executeShellCommand (.launchFailed "boom".data)).output
        = "Error: boom".data := by
  have h0 := claim_C5_amended 0 " hi ".data [] "boom".data
  have h7 := claim_C5_amended 7 [] [] "boom".data
  refine ⟨(h0.1 rfl).1, ?_, ?_⟩
  · rw [(h7.2.1 (by decide)).2.1]
    decide
  · rw [h7.2.2.2]
    decide

/-- Claim C6: each of `explain`, `generate` and `summarize`, invoked with an
empty argument, returns a failed result whose message names the required
usage, and makes no call to the text-generation collaborator (empty trace). -/
theorem claim_C6 (env : Collab) (cfg : Bool) :
    handleAICommand env cfg "explain".data []
      = ({ success := false,
           output := "Please provide text to explain. Usage: explain <text>".data,
           error := some "Missing text".data }, [])
    ∧ handleAICommand env cfg "generate".data []
      = ({ success := false,
           output := "Please provide a generation request. Usage: generate <request>".data,
           error := some "Missing request".data }, [])
    ∧ handleAICommand env cfg "summarize".data []
      = ({ success := false,
           output := "Please provide text to summarize. Usage: summarize <text>".data,
           error := some "Missing text".data }, []) := by
  refine ⟨?_, ?_, ?_⟩ <;> rfl

/-- Claim C7: `vision` with a non-empty argument naming a path that does not
exist returns a failed result reporting the file as not found, and makes no
collaborator call (empty trace). -/
theorem claim_C7 (env : Collab) (ready : Bool) (imagePath : List Char)
    (h_ne : imagePath ≠ []) (h_nx : env.fsExists imagePath = false) :
    handleVision env ready imagePath
      = ({ success := false,
           output := "Image file not found: ".data ++ imagePath,
           error := some "File not found".data }, []) := by
  simp [handleVision, h_ne, h_nx]

/-- Witness for claim C7 at the spec's own example path. -/
theorem claim_C7_witness :
    handleVision stubCollab true "/does/not/exist.png".data
      = ({ success := false,
           output := "Image file not found: /does/not/exist.png".data,
           error := some "File not found".data }, []) := by
  have h := claim_C7 stubCollab true "/does/not/exist.png".data (by decide) rfl
  rw [h]
  decide

/-- Claim C8: invoking an AI-dependent verb (explain/generate/summarize or
vision) with no model configured first solicits a credential (the trace is
exactly one key prompt); when the typed value is empty or shorter than 20
characters after trimming, the dispatch returns the failed
AI-features-unavailable result, leaves the terminal state untouched (the
session continues), and any shell-classified input still runs through the
shell passthrough afterwards. -/
theorem claim_C8 (env : Collab) (st : TermState) (input : List Char)
    (hverb : dispatchOf (parseCommand input).1 = Dispatch.aiCmd
           ∨ dispatchOf (parseCommand input).1 = Dispatch.visionCmd)
    (hcfg : st.modelConfigured = false)
    (hkey : jsTrim env.enteredKey = [] ∨ (jsTrim env.enteredKey).length < 20) :
    executeCommand env st input = (noKeyResult, st, [CallEvent.keyPrompt])
    ∧ (∀ c, dispatchOf (parseCommand c).1 = Dispatch.shellCmd →
        (executeCommand env st c).2.2 = [CallEvent.shellCall (jsTrim c)]
        ∧ (executeCommand env st c).1 = executeShellCommand (env.shell (jsTrim c))) := by
  have hpk : promptKeyResult env.enteredKey = none := by
    unfold promptKeyResult
    rcases hkey with h | h
    · simp [h]
    · by_cases he : jsTrim env.enteredKey = [] <;> simp [he, h]
  constructor
  · rcases hverb with hd | hd <;>
      simp [executeCommand, hd, hcfg, hpk]
  · intro c hd
    simp [executeCommand, hd]

/-- Witness for claim C8: the key typed in the stub environment is `short`
(five characters), so `explain hi` fails without aborting the session and
`ls` still reaches the shell. -/
theorem claim_C8_witness :
    executeCommand stubCollab stFresh "explain hi".data
      = (noKeyResult, stFresh, [CallEvent.keyPrompt])
    ∧ (executeCommand stubCollab stFresh "ls".data).2.2
        = [CallEvent.shellCall "ls".data] := by
  have h := claim_C8 stubCollab stFresh "explain hi".data
    (Or.inl (by decide)) rfl (Or.inr (by decide))
  exact ⟨h.1, (h.2 "ls".data (by decide)).1⟩

/-- Claim C9, counterexample.  With a consistent stub collaborator (the
blocking answer is the concatenation of the streamed fragments for every
prompt), the input `explain` with EMPTY argument streams the model's answer to
the bare prompt template, while the blocking call returns the usage-error
message without calling the collaborator — so the claimed equality does not
hold for every argument. -/
theorem claim_C9_counterexample :
    concatChunks (streamResponse stubCollab stConfigured "explain".data).1
      = "Resp".data
    ∧ (executeCommand stubCollab stConfigured "explain".data).1.output
        = "Please provide text to explain. Usage: explain <text>".data
    ∧ concatChunks (streamResponse stubCollab stConfigured "explain".data).1
        ≠ (executeCommand stubCollab stConfigured "explain".data).1.output := by
  decide

set_option maxRecDepth 100000 in
/-- Claim C9 as amended: for explain/generate/summarize invocations with a
NON-EMPTY argument, against a collaborator stub that never throws mid-stream
and whose blocking answer to every prompt is the concatenation of its streamed
fragments, the concatenation of the fragments yielded by `streamResponse`
equals the output of the blocking dispatch, the blocking dispatch succeeds,
and both call modes pass the identical task-specific prompt to the
collaborator. -/
theorem claim_C9_amended (env : Collab) (st : TermState) (input : List Char)
    (hcfg : st.modelConfigured = true)
    (hcmd : (parseCommand input).1 = "explain".data
          ∨ (parseCommand input).1 = "generate".data
          ∨ (parseCommand input).1 = "summarize".data)
    (hargs : (parseCommand input).2 ≠ [])
    (hnoerr : ∀ p, (env.genStream p).2 = none)
    (hcons : ∀ p, env.gen p = Except.ok (concatChunks (env.genStream p).1)) :
    concatChunks (streamResponse env st input).1
      = (executeCommand env st input).1.output
    ∧ (executeCommand env st input).1.success = true
    ∧ ∃ p, (streamResponse env st input).2.2 = [CallEvent.streamCall p]
        ∧ (executeCommand env st input).2.2 = [CallEvent.genCall p] := by
  rcases hcmd with hv | hv | hv
  · obtain ⟨a, hpair⟩ : ∃ a, parseCommand input = ("explain".data, a) :=
      ⟨(parseCommand input).2, by rw [← hv]⟩
    have ha : a ≠ [] := by rw [hpair] at hargs; exact hargs
    obtain ⟨chunks, hsp⟩ : ∃ chunks,
        env.genStream ("Explain this in 2-3 lines max, concise and technical:\n\n".data
          ++ a) = (chunks, none) :=
      ⟨_, Prod.ext rfl (hnoerr _)⟩
    have hg := hcons ("Explain this in 2-3 lines max, concise and technical:\n\n".data ++ a)
    rw [hsp] at hg
    simp only [] at hg
    simp at hsp hg
    have hstream : streamResponse env st input
        = (chunks, st,
           [CallEvent.streamCall
             ("Explain this in 2-3 lines max, concise and technical:\n\n".data ++ a)]) := by
      simp only [streamResponse, hpair, hcfg]
      simp [hsp]
    have hexec1 : (executeCommand env st input).1
          = { success := true, output := concatChunks chunks, error := none }
        ∧ (executeCommand env st input).2.2
          = [CallEvent.genCall
              ("Explain this in 2-3 lines max, concise and technical:\n\n".data ++ a)] := by
      have hdl : dispatchOf "explain".data = Dispatch.aiCmd := by decide
      simp only [executeCommand, hpair, hcfg]
      simp [hdl, handleAICommand, handleExplain, ha, callGeminiAPI, hg]
    rw [hstream, hexec1.1]
    exact ⟨rfl, rfl, _, rfl, hexec1.2⟩
  · obtain ⟨a, hpair⟩ : ∃ a, parseCommand input = ("generate".data, a) :=
      ⟨(parseCommand input).2, by rw [← hv]⟩
    have ha : a ≠ [] := by rw [hpair] at hargs; exact hargs
    obtain ⟨chunks, hsp⟩ : ∃ chunks,
        env.genStream ("Generate clean code only, no explanations unless essential. Keep it minimal:\n\n".data
          ++ a) = (chunks, none) :=
      ⟨_, Prod.ext rfl (hnoerr _)⟩
    have hg := hcons
      ("Generate clean code only, no explanations unless essential. Keep it minimal:\n\n".data ++ a)
    rw [hsp] at hg
    simp only [] at hg
    simp at hsp hg
    have hstream : streamResponse env st input
        = (chunks, st,
           [CallEvent.streamCall
             ("Generate clean code only, no explanations unless essential. Keep it minimal:\n\n".data
               ++ a)]) := by
      simp only [streamResponse, hpair, hcfg]
      simp [hsp]
    have hexec1 : (executeCommand env st input).1
          = { success := true, output := concatChunks chunks, error := none }
        ∧ (executeCommand env st input).2.2
          = [CallEvent.genCall
              ("Generate clean code only, no explanations unless essential. Keep it minimal:\n\n".data
                ++ a)] := by
      have hdl : dispatchOf "generate".data = Dispatch.aiCmd := by decide
      simp only [executeCommand, hpair, hcfg]
      simp [hdl, handleAICommand, handleGenerate, ha, callGeminiAPI, hg]
    rw [hstream, hexec1.1]
    exact ⟨rfl, rfl, _, rfl, hexec1.2⟩
  · obtain ⟨a, hpair⟩ : ∃ a, parseCommand input = ("summarize".data, a) :=
      ⟨(parseCommand input).2, by rw [← hv]⟩
    have ha : a ≠ [] := by rw [hpair] at hargs; exact hargs
    obtain ⟨chunks, hsp⟩ : ∃ chunks,
        env.genStream ("Summarize in 2-3 lines max, key points only:\n\n".data
          ++ a) = (chunks, none) :=
      ⟨_, Prod.ext rfl (hnoerr _)⟩
    have hg := hcons ("Summarize in 2-3 lines max, key points only:\n\n".data ++ a)
    rw [hsp] at hg
    simp only [] at hg
    simp at hsp hg
    have hstream : streamResponse env st input
        = (chunks, st,
           [CallEvent.streamCall
             ("Summarize in 2-3 lines max, key points only:\n\n".data ++ a)]) := by
      simp only [streamResponse, hpair, hcfg]
      simp [hsp]
    have hexec1 : (executeCommand env st input).1
          = { success := true, output := concatChunks chunks, error := none }
        ∧ (executeCommand env st input).2.2
          = [CallEvent.genCall
              ("Summarize in 2-3 lines max, key points only:\n\n".data ++ a)] := by
      have hdl : dispatchOf "summarize".data = Dispatch.aiCmd := by decide
      simp only [executeCommand, hpair, hcfg]
      simp [hdl, handleAICommand, handleSummarize, ha, callGeminiAPI, hg]
    rw [hstream, hexec1.1]
    exact ⟨rfl, rfl, _, rfl, hexec1.2⟩

/-- Witness for claim C9's amended theorem: the consistent stub streams
`Re`, `sp` and answers `Resp` when blocked, so `explain hi` agrees across the
two call modes. -/
theorem claim_C9_witness :
    concatChunks (streamResponse stubCollab stConfigured "explain hi".data).1
      = (executeCommand stubCollab stConfigured "explain hi".data).1.output
    ∧ (executeCommand stubCollab stConfigured "explain hi".data).1.success = true := by
  have hc : ∀ p, stubCollab.gen p
      = Except.ok (concatChunks (stubCollab.genStream p).1) := fun p => rfl
  have hn : ∀ p, (stubCollab.genStream p).2 = none := fun p => rfl
  have h := claim_C9_amended stubCollab stConfigured "explain hi".data rfl
    (Or.inl (by decide)) (by decide) hn hc
  exact ⟨h.1, h.2.1⟩

end Morpheus
